import Mathlib

/-!
# Verification of the OpenClaw dashboard request-handling core

Shallow embedding of `server.js`: the TTL cache, the per-IP rate limiter,
the bearer-token auth gate, the CORS negotiator, the input validators, the
metric collectors (sessions, crons, services, network) and the request
router, with theorems checking the specification's claims against them.

Timestamps (`Date.now()` milliseconds) are modelled as `Int`. JavaScript
string-valued header fields that may be absent are `Option String`, with
`none` standing for `undefined` and the empty string kept distinct so that
JS truthiness can be modelled faithfully.
-/

namespace OpenClaw

/-- JS truthiness of an optional string: `undefined` and `""` are falsy. -/
def jsTruthyStr : Option String → Bool
  | none => false
  | some s => s ≠ ""

/-! ## TTL cache (`getCached` / `setCache`, server.js lines 96-109) -/

/-- `CACHE_TTL = 5000` (5 seconds). -/
def CACHE_TTL : Int := 5000

/-- One entry of the response cache: `{ data, time: Date.now() }`. -/
structure CacheEntry (α : Type) where
  data : α
  time : Int
deriving Repr, DecidableEq

/-- The cache `Map`, as a partial map from string keys to entries. -/
def Cache (α : Type) : Type := String → Option (CacheEntry α)

/-- The empty cache (`new Map()`). -/
def Cache.empty {α : Type} : Cache α := fun _ => none

/-- `getCached(key)`: the stored data if the entry exists and
`Date.now() - entry.time < CACHE_TTL`, else `null`. -/
def getCached {α : Type} (now : Int) (c : Cache α) (key : String) : Option α :=
  match c key with
  | some entry => if now - entry.time < CACHE_TTL then some entry.data else none
  | none => none

/-- `setCache(key, data)`: overwrite the entry with the current timestamp. -/
def setCache {α : Type} (now : Int) (c : Cache α) (key : String) (data : α) :
    Cache α :=
  fun k => if k = key then some ⟨data, now⟩ else c k

/-! ## Rate limiter (`isRateLimited` and the sweep timer, lines 115-138) -/

/-- `RATE_LIMIT = 60` requests per window. -/
def RATE_LIMIT : Nat := 60

/-- `RATE_WINDOW = 60_000` ms. -/
def RATE_WINDOW : Int := 60000

/-- One entry of `rateMap`: `{ count, start }`. -/
structure RateEntry where
  count : Nat
  start : Int
deriving Repr, DecidableEq

/-- The `rateMap`, as a partial map from client IPs to entries. -/
def RateMap : Type := String → Option RateEntry

/-- The empty rate map (`new Map()`). -/
def RateMap.empty : RateMap := fun _ => none

/-- `isRateLimited(ip)`: reset to `{count:1, start:now}` and allow when the
entry is absent or `now - entry.start > RATE_WINDOW`; otherwise increment
`count` and limit iff `count > RATE_LIMIT`. Returns the verdict and the
updated map. -/
def isRateLimited (now : Int) (m : RateMap) (ip : String) : Bool × RateMap :=
  match m ip with
  | none => (false, fun k => if k = ip then some ⟨1, now⟩ else m k)
  | some entry =>
    if now - entry.start > RATE_WINDOW then
      (false, fun k => if k = ip then some ⟨1, now⟩ else m k)
    else
      (entry.count + 1 > RATE_LIMIT,
        fun k => if k = ip then some ⟨entry.count + 1, entry.start⟩ else m k)

/-- The periodic sweep (`setInterval` body, lines 132-137): delete every
entry with `now - entry.start > RATE_WINDOW`, keep the rest untouched. -/
def rateSweep (now : Int) (m : RateMap) : RateMap :=
  fun ip =>
    match m ip with
    | some entry => if now - entry.start > RATE_WINDOW then none else some entry
    | none => none

/-- A sequence of `isRateLimited` calls for one client at the given
timestamps, returning the verdicts in order. -/
def rateCalls (ip : String) (m : RateMap) : List Int → List Bool
  | [] => []
  | t :: ts =>
    let r := isRateLimited t m ip
    r.1 :: rateCalls ip r.2 ts

/-! ## Auth gate (`checkAuth`, lines 172-181) -/

/-- Accumulator pass of JS `String.prototype.split` with a single-character
separator: every separator occurrence cuts, empty pieces are kept. -/
def splitCharAux (sep : Char) : List Char → List Char → List String
  | [], acc => [String.mk acc.reverse]
  | c :: cs, acc =>
    if c = sep then String.mk acc.reverse :: splitCharAux sep cs []
    else splitCharAux sep cs (c :: acc)

/-- JS `s.split(' ')`: split on every single space, keeping empty pieces;
the empty string yields `[""]`. -/
def jsSplitSpace (s : String) : List String :=
  splitCharAux ' ' s.data []

/-- `checkAuth`: true when the configured token is falsy (`null` or `""`);
false when the `Authorization` header is falsy; otherwise split the header
on single spaces (`jsSplitSpace`) and accept iff the first field is
`Bearer` and the second equals the token. -/
def checkAuth (token : Option String) (header : Option String) : Bool :=
  match token with
  | none => true
  | some t =>
    if t = "" then true
    else
      match header with
      | none => false
      | some h =>
        if h = "" then false
        else
          let parts := jsSplitSpace h
          decide (parts.get? 0 = some "Bearer" ∧ parts.get? 1 = some t)

/-! ## CORS negotiator (`getCorsHeaders`, lines 145-165) -/

/-- `getCorsHeaders(req)`: always emits the allow-methods, allow-headers and
content-type pairs; adds `Access-Control-Allow-Origin` per the allowlist
policy of lines 155-162. -/
def getCorsHeaders (allowedOrigins : List String) (origin : Option String) :
    List (String × String) :=
  let base := [("Access-Control-Allow-Methods", "GET, OPTIONS"),
               ("Access-Control-Allow-Headers", "Content-Type, Authorization"),
               ("Content-Type", "application/json")]
  if allowedOrigins = [] then
    if jsTruthyStr origin then
      base ++ [("Access-Control-Allow-Origin", origin.getD "")]
    else base
  else if "*" ∈ allowedOrigins then
    base ++ [("Access-Control-Allow-Origin", "*")]
  else if jsTruthyStr origin ∧ origin.getD "" ∈ allowedOrigins then
    base ++ [("Access-Control-Allow-Origin", origin.getD "")]
  else base

/-! ## Input validators (`isValidUrl` / `isValidHostname`, lines 225-237)

`isValidUrl` delegates to the platform WHATWG `URL` parser, an external
collaborator; it is modelled by its boolean verdict, passed as a parameter
`validUrl` to the collectors that consult it. `isValidHostname` is a pure
regex test and is embedded directly. -/

/-- `[a-zA-Z0-9]`. -/
def isAlnumChar (c : Char) : Bool :=
  (('a' ≤ c && c ≤ 'z') || ('A' ≤ c && c ≤ 'Z') || ('0' ≤ c && c ≤ '9'))

/-- `[a-zA-Z0-9._-]`. -/
def isHostChar (c : Char) : Bool :=
  isAlnumChar c || c = '.' || c = '_' || c = '-'

/-- `isValidHostname(str)`: the regex `^[a-zA-Z0-9][a-zA-Z0-9._-]*$`. -/
def isValidHostname (s : String) : Bool :=
  match s.data with
  | [] => false
  | c :: rest => isAlnumChar c && rest.all isHostChar

/-! ## JSON values

`JSON.parse` output is modelled by the inductive `Json`; the parser itself
is an external collaborator passed as a parameter `parseJson : String →
Option Json`, where `none` stands for a thrown `SyntaxError`. Property
access on a parsed value throws only on `null` (modelled with `Except
Unit`); on objects a missing key yields `undefined` (`none`), and on the
other primitives and arrays the properties read by the collectors are
likewise `undefined`. -/

/-- A parsed JSON value. -/
inductive Json where
  | null
  | bool (b : Bool)
  | num (n : Int)
  | str (s : String)
  | arr (elems : List Json)
  | obj (fields : List (String × Json))

/-- Object member lookup; with duplicate keys `JSON.parse` keeps the last
occurrence. `none` is `undefined`. -/
def jsonLookup (fields : List (String × Json)) (k : String) : Option Json :=
  fields.foldl (fun acc p => if p.1 = k then some p.2 else acc) none

/-- JS truthiness of a possibly-`undefined` JSON value. -/
def jsTruthy : Option Json → Bool
  | none => false
  | some .null => false
  | some (.bool b) => b
  | some (.num n) => n ≠ 0
  | some (.str s) => s ≠ ""
  | some (.arr _) => true
  | some (.obj _) => true

/-- Property access `v.k` on a non-null, non-undefined value: total. -/
def Json.getNN (j : Json) (k : String) : Option Json :=
  match j with
  | .obj fields => jsonLookup fields k
  | _ => none

/-- Property access `v.k` on a parsed value: throws a `TypeError` on
`null`. -/
def Json.get (j : Json) (k : String) : Except Unit (Option Json) :=
  match j with
  | .null => .error ()
  | _ => .ok (j.getNN k)

/-- Optional chaining `v?.k`: `undefined` when `v` is `null`/`undefined`,
plain access otherwise. -/
def jsOptGet (v : Option Json) (k : String) : Option Json :=
  match v with
  | none => none
  | some .null => none
  | some j => j.getNN k

/-- `a || b` on JS values. -/
def jsOr (a b : Option Json) : Option Json :=
  if jsTruthy a then a else b

/-- Calling `.map` on a value: only arrays have it; anything else throws. -/
def asMapTarget : Json → Except Unit (List Json)
  | .arr xs => .ok xs
  | _ => .error ()

/-! ## Sessions collector (`getSessions`, lines 272-300) -/

/-- One normalized session record (body of the `.map` at lines 286-291). -/
structure SessionRec where
  name : Option Json
  channel : Option Json
  tokens : Option Json
  updated : Option Json

/-- `{ sessions: [...] }`. -/
structure SessionsResult where
  sessions : List SessionRec

/-- Normalize one session item `s` (lines 286-291): property access throws
iff `s` is `null`. -/
def mapSession (s : Json) : Except Unit SessionRec := do
  let label ← s.get "label"
  let name ←
    if jsTruthy label then pure label
    else do
      let dn ← s.get "displayName"
      if jsTruthy dn then pure dn else s.get "key"
  let ch ← s.get "channel"
  let tok ← s.get "totalTokens"
  let upd ← s.get "updatedAt"
  pure ⟨name, jsOr ch (some (.str "unknown")), jsOr tok (some (.num 0)), upd⟩

/-- The parse-and-normalize step of `getSessions` (lines 284-292): `none`
input is a thrown `JSON.parse`; then `(data.sessions || []).map(...)`. -/
def collectSessions : Option Json → Except Unit (List SessionRec)
  | none => .error ()
  | some data => do
    let s ← data.get "sessions"
    let xs ← if jsTruthy s then asMapTarget (s.getD .null) else pure []
    xs.mapM mapSession

/-- `getSessions()`: consult the cache, validate the gateway URL, probe via
`curl` (`probe`, `none` = `runFile` failure, `""` falsy), parse and
normalize; any failure returns `{ sessions: [] }` without touching the
cache; success is cached. -/
def getSessions (now : Int) (cache : Cache SessionsResult)
    (validUrl : String → Bool) (gatewayUrl : String)
    (probe : String → Option String) (parseJson : String → Option Json) :
    SessionsResult × Cache SessionsResult :=
  match getCached now cache "sessions" with
  | some r => (r, cache)
  | none =>
    let url := gatewayUrl ++ "/api/sessions"
    if !validUrl url then (⟨[]⟩, cache)
    else
      match probe url with
      | none => (⟨[]⟩, cache)
      | some out =>
        if out = "" then (⟨[]⟩, cache)
        else
          match collectSessions (parseJson out) with
          | .error _ => (⟨[]⟩, cache)
          | .ok recs =>
            (⟨recs⟩, setCache now cache "sessions" (⟨recs⟩ : SessionsResult))

/-! ## Crons collector (`getCrons`, lines 376-405) -/

/-- One normalized cron record (body of the `.map` at lines 390-396). -/
structure CronRec where
  name : Option Json
  schedule : Option Json
  enabled : Option Json
  lastRun : Option Json
  lastStatus : Option Json

/-- `{ jobs: [...] }`. -/
structure CronsResult where
  jobs : List CronRec

/-- Normalize one cron item `j` (lines 390-396). -/
def mapCron (j : Json) : Except Unit CronRec := do
  let nm ← j.get "name"
  let name ← if jsTruthy nm then pure nm else j.get "id"
  let sched ← j.get "schedule"
  let expr := jsOptGet sched "expr"
  let kind := jsOptGet sched "kind"
  let en ← j.get "enabled"
  let st ← j.get "state"
  pure ⟨name, jsOr expr (jsOr kind (some (.str "--"))), en,
    jsOptGet st "lastRunAtMs", jsOptGet st "lastStatus"⟩

/-- The parse-and-normalize step of `getCrons` (lines 388-397). -/
def collectCrons : Option Json → Except Unit (List CronRec)
  | none => .error ()
  | some data => do
    let s ← data.get "jobs"
    let xs ← if jsTruthy s then asMapTarget (s.getD .null) else pure []
    xs.mapM mapCron

/-- `getCrons()`: same shape as `getSessions` with the `/api/cron` path and
the `jobs` envelope. -/
def getCrons (now : Int) (cache : Cache CronsResult)
    (validUrl : String → Bool) (gatewayUrl : String)
    (probe : String → Option String) (parseJson : String → Option Json) :
    CronsResult × Cache CronsResult :=
  match getCached now cache "crons" with
  | some r => (r, cache)
  | none =>
    let url := gatewayUrl ++ "/api/cron"
    if !validUrl url then (⟨[]⟩, cache)
    else
      match probe url with
      | none => (⟨[]⟩, cache)
      | some out =>
        if out = "" then (⟨[]⟩, cache)
        else
          match collectCrons (parseJson out) with
          | .error _ => (⟨[]⟩, cache)
          | .ok recs =>
            (⟨recs⟩, setCache now cache "crons" (⟨recs⟩ : CronsResult))

/-! ## Services collector (`getServices`, lines 302-341)

Each probe is instrumented with a log of the strings handed to
`runFile('curl', ..., url, ...)`, so that "rejected values never reach the
process runner" is expressible. -/

/-- One service target from configuration (`svc`): any field may be
absent. -/
structure ServiceTarget where
  name : Option String
  url : Option String
  port : Option String
  healthPath : Option String
deriving Repr, DecidableEq

/-- One entry of the `services` result list. -/
structure ServiceResult where
  name : Option String
  port : Option String
  status : String
deriving Repr, DecidableEq

/-- JS template interpolation of a possibly-`undefined` string. -/
def jsInterp : Option String → String
  | none => "undefined"
  | some s => s

/-- The probe URL of a service:
`svc.url || http-localhost-template` (line 318-319). -/
def serviceUrl (svc : ServiceTarget) : String :=
  if jsTruthyStr svc.url then svc.url.getD ""
  else
    "http://localhost:" ++ jsInterp svc.port ++
      (if jsTruthyStr svc.healthPath then svc.healthPath.getD "" else "/")

/-- Probe one service (body of the `Promise.all` map, lines 317-335):
validation failure short-circuits to "down" with an empty probe log;
otherwise `curl` reports the HTTP status code and the target is "up" iff
it is `200` or `404`. -/
def probeService (validUrl : String → Bool) (curl : String → Option String)
    (svc : ServiceTarget) : ServiceResult × List String :=
  let url := serviceUrl svc
  if !validUrl url then (⟨svc.name, svc.port, "down"⟩, [])
  else
    let code := curl url
    (⟨svc.name, svc.port,
      if code = some "200" ∨ code = some "404" then "up" else "down"⟩, [url])

/-- The synthetic gateway entry prepended to the configured services
(lines 306-312): its port is `gatewayUrl.split(':').pop()`. -/
def defaultServices (gatewayUrl : String) : List ServiceTarget :=
  [⟨some "OpenClaw Gateway", none,
    some (((splitCharAux ':' gatewayUrl.data []).getLast?).getD ""),
    some "/health"⟩]

/-- The uncached collection pass of `getServices`: probe the default and
configured targets, returning results in order plus the probe log. -/
def collectServices (validUrl : String → Bool) (curl : String → Option String)
    (gatewayUrl : String) (services : List ServiceTarget) :
    List ServiceResult × List String :=
  let pairs :=
    (defaultServices gatewayUrl ++ services).map (probeService validUrl curl)
  (pairs.map (·.1), (pairs.map (·.2)).flatten)

/-- `getServices()`: cache consult, probe pass, cache fill. -/
def getServices (now : Int) (cache : Cache (List ServiceResult))
    (validUrl : String → Bool) (curl : String → Option String)
    (gatewayUrl : String) (services : List ServiceTarget) :
    List ServiceResult × Cache (List ServiceResult) × List String :=
  match getCached now cache "services" with
  | some r => (r, cache, [])
  | none =>
    let p := collectServices validUrl curl gatewayUrl services
    (p.1, setCache now cache "services" p.1, p.2)

/-! ## Network collector (`getNetwork`, lines 343-374) -/

/-- One configured host (`{ name, ip }`). -/
structure HostTarget where
  name : Option String
  ip : String
deriving Repr, DecidableEq

/-- One entry of the `hosts` result list. -/
structure HostResult where
  name : Option String
  ip : String
  status : String
deriving Repr, DecidableEq

/-- Probe one host (body of the `Promise.all` map, lines 352-368): an
invalid hostname short-circuits to "offline" with an empty probe log;
otherwise `ping` runs and the host is "online" iff it did not fail. -/
def probeHost (ping : String → Option String) (host : HostTarget) :
    HostResult × List String :=
  if !isValidHostname host.ip then (⟨host.name, host.ip, "offline"⟩, [])
  else
    let r := ping host.ip
    (⟨host.name, host.ip, if r.isSome then "online" else "offline"⟩, [host.ip])

/-- The uncached collection pass of `getNetwork`. -/
def collectNetwork (ping : String → Option String) (hosts : List HostTarget) :
    List HostResult × List String :=
  let pairs := hosts.map (probeHost ping)
  (pairs.map (·.1), (pairs.map (·.2)).flatten)

/-- `getNetwork()`: empty host list short-circuits; else cache consult,
probe pass, cache fill. -/
def getNetwork (now : Int) (cache : Cache (List HostResult))
    (ping : String → Option String) (hosts : List HostTarget) :
    List HostResult × Cache (List HostResult) × List String :=
  if hosts.isEmpty then ([], cache, [])
  else
    match getCached now cache "network" with
    | some r => (r, cache, [])
    | none =>
      let p := collectNetwork ping hosts
      (p.1, setCache now cache "network" p.1, p.2)

/-! ## Request router (`handleRequest`, lines 455-532)

The six collectors are awaited effects; their results for this request are
supplied by the environment field `collect`, and `process.uptime()` by
`uptime`. The static-file branch is out of scope and is represented by the
`staticFile` outcome. -/

/-- JS `s.startsWith(pre)` over the character lists (structural). -/
def leadsChars : List Char → List Char → Bool
  | [], _ => true
  | _ :: _, [] => false
  | c :: cs, d :: ds => c = d && leadsChars cs ds

/-- JS `s.startsWith(pre)`. -/
def strLeads (pre s : String) : Bool := leadsChars pre.data s.data

/-- The parts of an incoming request that the router reads. -/
structure Request where
  method : String
  path : String
  origin : Option String
  authorization : Option String
  ip : String

/-- A JSON response: status code, headers, optional stringified body. -/
structure Response where
  status : Nat
  headers : List (String × String)
  body : Option Json

/-- Router outcome: a JSON response, or delegation to static serving. -/
inductive HOut where
  | response (r : Response)
  | staticFile (path : String)

/-- The configuration and effect results the router consumes. -/
structure HandlerEnv where
  allowedOrigins : List String
  authToken : Option String
  collect : String → Json
  uptime : Int

/-- The exact API paths of the `switch` at lines 494-512. -/
def apiPaths : List String :=
  ["/api/system", "/api/sessions", "/api/services", "/api/network",
   "/api/crons", "/api/config"]

/-- `handleRequest(req, res)`: rate limit, CORS preflight, health, API
dispatch (auth gate, exact-path switch, 404), static fallthrough. Returns
the outcome and the updated rate map. -/
def handleRequest (env : HandlerEnv) (now : Int) (rm : RateMap)
    (req : Request) : HOut × RateMap :=
  let lim := isRateLimited now rm req.ip
  if lim.1 then
    (.response ⟨429,
      [("Content-Type", "application/json"), ("Retry-After", "60")],
      some (.obj [("error", .str "Too many requests")])⟩, lim.2)
  else if req.method = "OPTIONS" then
    (.response ⟨204, getCorsHeaders env.allowedOrigins req.origin, none⟩,
      lim.2)
  else if req.path = "/health" then
    (.response ⟨200, [("Content-Type", "application/json")],
      some (.obj [("status", .str "ok"), ("uptime", .num env.uptime)])⟩,
      lim.2)
  else if strLeads "/api/" req.path then
    if !checkAuth env.authToken req.authorization then
      (.response ⟨401, getCorsHeaders env.allowedOrigins req.origin,
        some (.obj [("error", .str "Unauthorized")])⟩, lim.2)
    else
      let headers := getCorsHeaders env.allowedOrigins req.origin
      if req.path ∈ apiPaths then
        (.response ⟨200, headers, some (env.collect req.path)⟩, lim.2)
      else
        (.response ⟨404, headers, some (.obj [("error", .str "Not found")])⟩,
          lim.2)
  else
    (.staticFile req.path, lim.2)

/-- Header lookup in a response-header list (first match). -/
def headerLookup (hs : List (String × String)) (k : String) : Option String :=
  match hs with
  | [] => none
  | p :: rest => if p.1 = k then some p.2 else headerLookup rest k

/-! ## Theorems -/

/-- C6: cache round-trip. `setCache k v` at `t0` followed by `getCached k`
at `t` with `t - t0 < 5000` returns exactly `v`; `getCached` on a key with
no entry returns null; when `t - t0 ≥ 5000` it returns null while the
expired entry itself is left in place, not removed. -/
theorem cache_roundtrip {α : Type} (c : Cache α) (k : String) (v : α)
    (t0 t : Int) :
    (t - t0 < CACHE_TTL → getCached t (setCache t0 c k v) k = some v) ∧
    (c k = none → getCached t c k = none) ∧
    (t - t0 ≥ CACHE_TTL → getCached t (setCache t0 c k v) k = none) ∧
    setCache t0 c k v k = some ⟨v, t0⟩ := by
  refine ⟨?_, ?_, ?_, ?_⟩
  · intro h
    simp [getCached, setCache, h]
  · intro h
    simp [getCached, h]
  · intro h
    simp [getCached, setCache, not_lt.mpr h]
  · simp [setCache]

/-- Witness for `cache_roundtrip` at a concrete key, value and pair of
timestamps inside and outside the TTL. -/
theorem cache_roundtrip_witness :
    getCached 4999 (setCache 0 (Cache.empty : Cache Nat) "k" 7) "k" =
      some 7 ∧
    getCached 5000 (setCache 0 (Cache.empty : Cache Nat) "k" 7) "k" =
      none ∧
    getCached 4999 (Cache.empty : Cache Nat) "other" = none :=
  ⟨(cache_roundtrip Cache.empty "k" 7 0 4999).1 (by decide),
   (cache_roundtrip Cache.empty "k" 7 0 5000).2.2.1 (by decide),
   (cache_roundtrip Cache.empty "other" 7 0 4999).2.1 rfl⟩

/-- C9: a configured empty-string token is falsy in JS, so `checkAuth`
accepts every request, exactly as with a null token — the empty string does
not behave as a token no header can match. -/
theorem checkAuth_empty_token_disables_auth (header : Option String) :
    checkAuth (some "") header = true := rfl

/-- C1 counterexample: with token `secret123`, the header
`Bearer secret123 extra` is accepted by `checkAuth` although it is not
exactly the string `Bearer secret123` — the claim's "exact string
comparison, no extra content" clause is false. -/
theorem checkAuth_exact_header_counterexample :
    checkAuth (some "secret123") (some "Bearer secret123 extra") = true ∧
    "Bearer secret123 extra" ≠ "Bearer secret123" := by
  constructor
  · decide
  · decide

/-- C1 amended: `checkAuth` is true for every request when the configured
token is absent (or empty, which is falsy); with a nonempty token it is
false when the header is absent or empty, and otherwise accepts iff the
header's first space-separated field is `Bearer` and its second field
equals the token — content after a second space is ignored, so acceptance
is not exact-string equality with `Bearer <token>`. -/
theorem checkAuth_amended :
    (∀ header, checkAuth none header = true) ∧
    (∀ header, checkAuth (some "") header = true) ∧
    (∀ t : String, t ≠ "" → checkAuth (some t) none = false) ∧
    (∀ t h : String, t ≠ "" →
      (checkAuth (some t) (some h) = true ↔
        (jsSplitSpace h).get? 0 = some "Bearer" ∧
        (jsSplitSpace h).get? 1 = some t)) := by
  refine ⟨fun header => rfl, fun header => rfl, ?_, ?_⟩
  · intro t ht
    simp [checkAuth, ht]
  · intro t h ht
    by_cases hh : h = ""
    · subst hh
      simp [checkAuth, ht, show jsSplitSpace "" = [""] from rfl]
    · simp [checkAuth, ht, hh]

/-- Witness for `checkAuth_amended`: token `secret123` with the exact
header `Bearer secret123` is accepted, and with header `Basic secret123`
is rejected. -/
theorem checkAuth_amended_witness :
    checkAuth (some "secret123") (some "Bearer secret123") = true ∧
    checkAuth (some "secret123") (some "Basic secret123") = false :=
  ⟨(checkAuth_amended.2.2.2 "secret123" "Bearer secret123"
      (by decide)).mpr (by decide),
   by decide⟩

/-- C2: the rate limiter resets to `{count:1, start:now}` and allows when
the client has no entry or its window expired (`now - start > 60000`);
otherwise it increments the count and limits iff the new count exceeds 60.
Consequently 61 calls of a fresh client inside one window answer false 60
times then true, and a call after the window expires answers false. -/
theorem rate_limiter_spec :
    (∀ (now : Int) (m : RateMap) (ip : String),
      (m ip = none ∨ ∃ e, m ip = some e ∧ now - e.start > RATE_WINDOW) →
      isRateLimited now m ip =
        (false, fun k => if k = ip then some ⟨1, now⟩ else m k)) ∧
    (∀ (now : Int) (m : RateMap) (ip : String) (e : RateEntry),
      m ip = some e → now - e.start ≤ RATE_WINDOW →
      isRateLimited now m ip =
        (decide (e.count + 1 > RATE_LIMIT),
          fun k => if k = ip then some ⟨e.count + 1, e.start⟩ else m k)) ∧
    rateCalls "client" RateMap.empty (List.replicate 61 0 ++ [60001]) =
      List.replicate 60 false ++ [true, false] := by
  refine ⟨?_, ?_, by decide⟩
  · rintro now m ip (h | ⟨e, h, hgt⟩)
    · simp [isRateLimited, h]
    · simp [isRateLimited, h, hgt]
  · intro now m ip e h hle
    simp [isRateLimited, h, not_lt.mpr hle]

/-- Witness for `rate_limiter_spec`: a fresh client's first call resets and
allows; a client at count 60 inside the window is limited on its next
call. -/
theorem rate_limiter_spec_witness :
    isRateLimited 5 RateMap.empty "a" =
      (false, fun k => if k = "a" then some ⟨1, 5⟩ else RateMap.empty k) ∧
    isRateLimited 10 (fun k => if k = "a" then some ⟨60, 0⟩ else none) "a" =
      (decide (60 + 1 > RATE_LIMIT),
        fun k => if k = "a" then some ⟨60 + 1, 0⟩
          else (fun k => if k = "a" then some ⟨60, 0⟩ else none) k) :=
  ⟨rate_limiter_spec.1 5 RateMap.empty "a" (Or.inl rfl),
   rate_limiter_spec.2.1 10 (fun k => if k = "a" then some ⟨60, 0⟩ else none)
     "a" ⟨60, 0⟩ (by decide) (by decide)⟩

/-- The invariant of C10: every live entry counts at least one request and
has a window start not in the future. -/
def RateInv (now : Int) (m : RateMap) : Prop :=
  ∀ ip e, m ip = some e → 1 ≤ e.count ∧ e.start ≤ now

/-- C10: rate-map invariants. `isRateLimited` preserves the invariant, the
invariant is monotone in time, a call touches no other client's entry and
either installs/resets the caller's entry to `{count:1, start:now}` or
increments its count by exactly one; the sweep keeps exactly the
unexpired entries unchanged and preserves the invariant. -/
theorem rate_map_invariant :
    (∀ (now : Int) (m : RateMap) (ip : String), RateInv now m →
      RateInv now (isRateLimited now m ip).2) ∧
    (∀ (now now' : Int) (m : RateMap), RateInv now m → now ≤ now' →
      RateInv now' m) ∧
    (∀ (now : Int) (m : RateMap) (ip k : String), k ≠ ip →
      (isRateLimited now m ip).2 k = m k) ∧
    (∀ (now : Int) (m : RateMap) (ip : String),
      (isRateLimited now m ip).2 ip = some ⟨1, now⟩ ∨
      ∃ e, m ip = some e ∧ now - e.start ≤ RATE_WINDOW ∧
        (isRateLimited now m ip).2 ip = some ⟨e.count + 1, e.start⟩) ∧
    (∀ (now : Int) (m : RateMap) (k : String) (e : RateEntry),
      rateSweep now m k = some e ↔
        m k = some e ∧ now - e.start ≤ RATE_WINDOW) ∧
    (∀ (now : Int) (m : RateMap), RateInv now m →
      RateInv now (rateSweep now m)) := by
  refine ⟨?_, ?_, ?_, ?_, ?_, ?_⟩
  · intro now m ip hinv k e
    rcases hm : m ip with _ | entry
    · simp only [isRateLimited, hm]
      intro hk
      by_cases hki : k = ip
      · simp [hki] at hk
        simp [← hk]
      · simp [hki] at hk
        exact hinv k e hk
    · simp only [isRateLimited, hm]
      by_cases hgt : now - entry.start > RATE_WINDOW
      · simp only [if_pos hgt]
        intro hk
        by_cases hki : k = ip
        · simp [hki] at hk
          simp [← hk]
        · simp [hki] at hk
          exact hinv k e hk
      · simp only [if_neg hgt]
        intro hk
        by_cases hki : k = ip
        · simp [hki] at hk
          have := hinv ip entry hm
          subst hk
          exact ⟨Nat.le_add_left 1 entry.count, this.2⟩
        · simp [hki] at hk
          exact hinv k e hk
  · intro now now' m hinv hle k e hk
    exact ⟨(hinv k e hk).1, le_trans (hinv k e hk).2 hle⟩
  · intro now m ip k hk
    rcases hm : m ip with _ | entry
    · simp [isRateLimited, hm, hk]
    · simp only [isRateLimited, hm]
      by_cases hgt : now - entry.start > RATE_WINDOW
      · simp [if_pos hgt, hk]
      · simp [if_neg hgt, hk]
  · intro now m ip
    rcases hm : m ip with _ | entry
    · left
      simp [isRateLimited, hm]
    · by_cases hgt : now - entry.start > RATE_WINDOW
      · left
        simp [isRateLimited, hm, if_pos hgt]
      · right
        exact ⟨entry, rfl, not_lt.mp hgt,
          by simp [isRateLimited, hm, if_neg hgt]⟩
  · intro now m k e
    constructor
    · intro h
      rcases hm : m k with _ | entry
      · simp [rateSweep, hm] at h
      · simp only [rateSweep, hm] at h
        by_cases hgt : now - entry.start > RATE_WINDOW
        · simp [if_pos hgt] at h
        · simp [if_neg hgt] at h
          subst h
          exact ⟨rfl, not_lt.mp hgt⟩
    · rintro ⟨hm, hle⟩
      simp [rateSweep, hm, not_lt.mpr hle]
  · intro now m hinv k e hk
    rcases hm : m k with _ | entry
    · simp [rateSweep, hm] at hk
    · simp only [rateSweep, hm] at hk
      by_cases hgt : now - entry.start > RATE_WINDOW
      · simp [if_pos hgt] at hk
      · simp [if_neg hgt] at hk
        subst hk
        exact hinv k entry hm

/-- Witness for `rate_map_invariant`: the invariant holds after a first
call on the empty map, and the sweep keeps an in-window entry. -/
theorem rate_map_invariant_witness :
    RateInv 5 (isRateLimited 5 RateMap.empty "a").2 ∧
    (rateSweep 10 (fun k => if k = "a" then some ⟨3, 0⟩ else none) "a" =
      some ⟨3, 0⟩) ∧
    (isRateLimited 5 RateMap.empty "a").2 "b" = RateMap.empty "b" :=
  ⟨rate_map_invariant.1 5 RateMap.empty "a" (fun ip e h => nomatch h),
   (rate_map_invariant.2.2.2.2.1 10
      (fun k => if k = "a" then some ⟨3, 0⟩ else none) "a" ⟨3, 0⟩).mpr
     ⟨by decide, by decide⟩,
   rate_map_invariant.2.2.1 5 RateMap.empty "a" "b" (by decide)⟩

/-- C7: the CORS policy in priority order. The allow-methods and
allow-headers pairs are always present; the allow-origin header mirrors a
present Origin when the allowlist is empty, is `*` when the allowlist
contains the wildcard, echoes an allowlisted origin, and is absent
otherwise (also absent when the allowlist is empty but no Origin header
was sent). -/
theorem getCorsHeaders_spec (allowed : List String) (origin : Option String) :
    (("Access-Control-Allow-Methods", "GET, OPTIONS") ∈
        getCorsHeaders allowed origin ∧
      ("Access-Control-Allow-Headers", "Content-Type, Authorization") ∈
        getCorsHeaders allowed origin) ∧
    (allowed = [] → jsTruthyStr origin = true →
      headerLookup (getCorsHeaders allowed origin)
        "Access-Control-Allow-Origin" = origin) ∧
    (allowed = [] → jsTruthyStr origin = false →
      headerLookup (getCorsHeaders allowed origin)
        "Access-Control-Allow-Origin" = none) ∧
    (allowed ≠ [] → "*" ∈ allowed →
      headerLookup (getCorsHeaders allowed origin)
        "Access-Control-Allow-Origin" = some "*") ∧
    (allowed ≠ [] → "*" ∉ allowed → jsTruthyStr origin = true →
      origin.getD "" ∈ allowed →
      headerLookup (getCorsHeaders allowed origin)
        "Access-Control-Allow-Origin" = origin) ∧
    (allowed ≠ [] → "*" ∉ allowed →
      ¬(jsTruthyStr origin = true ∧ origin.getD "" ∈ allowed) →
      headerLookup (getCorsHeaders allowed origin)
        "Access-Control-Allow-Origin" = none) := by
  have hbase : ∀ v : String,
      headerLookup
        [("Access-Control-Allow-Methods", "GET, OPTIONS"),
         ("Access-Control-Allow-Headers", "Content-Type, Authorization"),
         ("Content-Type", "application/json"),
         ("Access-Control-Allow-Origin", v)]
        "Access-Control-Allow-Origin" = some v := by
    intro v
    simp [headerLookup]
  refine ⟨?_, ?_, ?_, ?_, ?_, ?_⟩
  · unfold getCorsHeaders
    split
    · split
      · simp
      · simp
    · split
      · simp
      · split
        · simp
        · simp
  · intro ha ho
    rcases origin with _ | o
    · simp [jsTruthyStr] at ho
    · simp [jsTruthyStr] at ho
      simp [getCorsHeaders, ha, jsTruthyStr, ho, hbase]
  · intro ha ho
    simp [getCorsHeaders, ha, ho, headerLookup]
  · intro ha hw
    simp [getCorsHeaders, ha, hw, hbase]
  · intro ha hw ho hm
    rcases origin with _ | o
    · simp [jsTruthyStr] at ho
    · simp [jsTruthyStr] at ho
      simp at hm
      simp [getCorsHeaders, ha, hw, jsTruthyStr, ho, hm, hbase]
  · intro ha hw hno
    by_cases ho : jsTruthyStr origin = true
    · have hm : origin.getD "" ∉ allowed := fun hmem => hno ⟨ho, hmem⟩
      simp [getCorsHeaders, ha, hw, ho, hm, headerLookup]
    · simp [getCorsHeaders, ha, hw, ho, headerLookup]

/-- Witness for `getCorsHeaders_spec`: an empty allowlist mirrors the
request origin, and an allowlist without the origin omits the header. -/
theorem getCorsHeaders_spec_witness :
    headerLookup (getCorsHeaders [] (some "http://a.example"))
      "Access-Control-Allow-Origin" = some "http://a.example" ∧
    headerLookup (getCorsHeaders ["http://b.example"] (some "http://a.example"))
      "Access-Control-Allow-Origin" = none ∧
    ("Access-Control-Allow-Methods", "GET, OPTIONS") ∈
      getCorsHeaders [] (some "http://a.example") :=
  ⟨(getCorsHeaders_spec [] (some "http://a.example")).2.1 rfl (by decide),
   (getCorsHeaders_spec ["http://b.example"]
       (some "http://a.example")).2.2.2.2.2 (by decide) (by decide)
     (by decide),
   (getCorsHeaders_spec [] (some "http://a.example")).1.1⟩

/-- Everything `probeHost` logs as handed to `ping` is the host's own
address and passed validation. -/
theorem probeHost_log (ping : String → Option String) (h : HostTarget) :
    ∀ s ∈ (probeHost ping h).2, isValidHostname s = true ∧ s = h.ip := by
  intro s hs
  unfold probeHost at hs
  by_cases hv : isValidHostname h.ip
  · simp [hv] at hs
    subst hs
    exact ⟨hv, rfl⟩
  · simp [hv] at hs

/-- Everything `collectNetwork` hands to `ping` passed validation. -/
theorem collectNetwork_log_valid (ping : String → Option String)
    (hosts : List HostTarget) :
    ∀ s ∈ (collectNetwork ping hosts).2, isValidHostname s = true := by
  induction hosts with
  | nil => intro s hs; simp [collectNetwork] at hs
  | cons h hs ih =>
    intro s hsmem
    simp only [collectNetwork, List.map_cons, List.flatten_cons,
      List.mem_append] at hsmem
    rcases hsmem with hmem | hmem
    · exact (probeHost_log ping h s hmem).1
    · exact ih s (by simpa [collectNetwork] using hmem)

/-- Everything `probeService` logs as handed to `curl` is the service's
probe URL and passed validation. -/
theorem probeService_log (validUrl : String → Bool)
    (curl : String → Option String) (svc : ServiceTarget) :
    ∀ s ∈ (probeService validUrl curl svc).2,
      validUrl s = true ∧ s = serviceUrl svc := by
  intro s hs
  unfold probeService at hs
  by_cases hv : validUrl (serviceUrl svc)
  · simp [hv] at hs
    subst hs
    exact ⟨hv, rfl⟩
  · simp [hv] at hs

/-- Everything `collectServices` hands to `curl` passed validation. -/
theorem collectServices_log_valid (validUrl : String → Bool)
    (curl : String → Option String) (gatewayUrl : String)
    (services : List ServiceTarget) :
    ∀ s ∈ (collectServices validUrl curl gatewayUrl services).2,
      validUrl s = true := by
  have haux : ∀ l : List ServiceTarget,
      ∀ s ∈ ((l.map (probeService validUrl curl)).map (·.2)).flatten,
        validUrl s = true := by
    intro l
    induction l with
    | nil => intro s hs; simp at hs
    | cons svc rest ih =>
      intro s hsmem
      simp only [List.map_cons, List.flatten_cons, List.mem_append] at hsmem
      rcases hsmem with hmem | hmem
      · exact (probeService_log validUrl curl svc s hmem).1
      · exact ih s hmem
  intro s hs
  exact haux (defaultServices gatewayUrl ++ services) s hs

/-- C3: validation outcomes gate every probe. An invalid configured host
address makes the network collector answer "offline" at that host's
position with its address never handed to the process runner; an invalid
service probe URL makes the services collector answer "down" at that
target's position with the URL never handed to the runner; and every
string the collectors (cached wrappers included) hand to a runner passed
its validation. -/
theorem validation_gates_probes :
    (∀ (ping : String → Option String) (hosts : List HostTarget)
       (i : Nat) (h : HostTarget), hosts[i]? = some h →
       isValidHostname h.ip = false →
       (collectNetwork ping hosts).1[i]? =
         some ⟨h.name, h.ip, "offline"⟩ ∧
       h.ip ∉ (collectNetwork ping hosts).2) ∧
    (∀ (ping : String → Option String) (hosts : List HostTarget),
       ∀ s ∈ (collectNetwork ping hosts).2, isValidHostname s = true) ∧
    (∀ (now : Int) (cache : Cache (List HostResult))
       (ping : String → Option String) (hosts : List HostTarget),
       ∀ s ∈ (getNetwork now cache ping hosts).2.2,
         isValidHostname s = true) ∧
    (∀ (validUrl : String → Bool) (curl : String → Option String)
       (gatewayUrl : String) (services : List ServiceTarget) (i : Nat)
       (svc : ServiceTarget),
       (defaultServices gatewayUrl ++ services)[i]? = some svc →
       validUrl (serviceUrl svc) = false →
       (collectServices validUrl curl gatewayUrl services).1[i]? =
         some ⟨svc.name, svc.port, "down"⟩ ∧
       serviceUrl svc ∉ (collectServices validUrl curl gatewayUrl
         services).2) ∧
    (∀ (validUrl : String → Bool) (curl : String → Option String)
       (gatewayUrl : String) (services : List ServiceTarget),
       ∀ s ∈ (collectServices validUrl curl gatewayUrl services).2,
         validUrl s = true) ∧
    (∀ (now : Int) (cache : Cache (List ServiceResult))
       (validUrl : String → Bool) (curl : String → Option String)
       (gatewayUrl : String) (services : List ServiceTarget),
       ∀ s ∈ (getServices now cache validUrl curl gatewayUrl
         services).2.2, validUrl s = true) := by
  refine ⟨?_, collectNetwork_log_valid, ?_, ?_, collectServices_log_valid,
    ?_⟩
  · intro ping hosts i h hi hv
    constructor
    · simp only [collectNetwork, List.map_map, List.getElem?_map, hi,
        Option.map_some]
      simp [probeHost, hv]
    · intro hmem
      have := collectNetwork_log_valid ping hosts h.ip hmem
      rw [hv] at this
      exact Bool.false_ne_true this
  · intro now cache ping hosts s hs
    unfold getNetwork at hs
    by_cases he : hosts.isEmpty
    · simp [he] at hs
    · simp only [he, if_neg, Bool.false_eq_true, if_false] at hs
      rcases hc : getCached now cache "network" with _ | r
      · rw [hc] at hs
        simp at hs
        exact collectNetwork_log_valid ping hosts s hs
      · rw [hc] at hs
        simp at hs
  · intro validUrl curl gatewayUrl services i svc hi hv
    constructor
    · simp only [collectServices, List.map_map, List.getElem?_map, hi,
        Option.map_some]
      simp [probeService, hv]
    · intro hmem
      have := collectServices_log_valid validUrl curl gatewayUrl services
        (serviceUrl svc) hmem
      rw [hv] at this
      exact Bool.false_ne_true this
  · intro now cache validUrl curl gatewayUrl services s hs
    unfold getServices at hs
    rcases hc : getCached now cache "services" with _ | r
    · rw [hc] at hs
      simp at hs
      exact collectServices_log_valid validUrl curl gatewayUrl services s hs
    · rw [hc] at hs
      simp at hs

/-- Witness for `validation_gates_probes`: a host with a shell
metacharacter in its address is reported offline and its address is not
probed. -/
theorem validation_gates_probes_witness :
    (collectNetwork (fun _ => some "") [⟨some "bad", "; rm -rf /"⟩]).1[0]? =
      some ⟨some "bad", "; rm -rf /", "offline"⟩ ∧
    "; rm -rf /" ∉ (collectNetwork (fun _ => some "")
      [⟨some "bad", "; rm -rf /"⟩]).2 :=
  validation_gates_probes.1 (fun _ => some "") [⟨some "bad", "; rm -rf /"⟩]
    0 ⟨some "bad", "; rm -rf /"⟩ (by decide) (by decide)

/-- C5: the sessions and crons collectors return the structurally-valid
empty result and leave the cache untouched on every internal failure
(invalid gateway URL, failed or empty probe output, or a parse/normalize
error), and in general either leave the cache unchanged or write it with
the successfully collected result — so a failure result is never cached
and never served from cache later. -/
theorem collectors_no_cache_poisoning :
    (∀ (now : Int) (cache : Cache SessionsResult)
       (validUrl : String → Bool) (gatewayUrl : String)
       (probe : String → Option String) (parseJson : String → Option Json),
       getCached now cache "sessions" = none →
       (validUrl (gatewayUrl ++ "/api/sessions") = false ∨
        probe (gatewayUrl ++ "/api/sessions") = none ∨
        probe (gatewayUrl ++ "/api/sessions") = some "" ∨
        (∃ out, probe (gatewayUrl ++ "/api/sessions") = some out ∧
          collectSessions (parseJson out) = .error ())) →
       getSessions now cache validUrl gatewayUrl probe parseJson =
         (⟨[]⟩, cache)) ∧
    (∀ (now : Int) (cache : Cache SessionsResult)
       (validUrl : String → Bool) (gatewayUrl : String)
       (probe : String → Option String) (parseJson : String → Option Json),
       (getSessions now cache validUrl gatewayUrl probe parseJson).2 =
         cache ∨
       (∃ out recs, probe (gatewayUrl ++ "/api/sessions") = some out ∧
         out ≠ "" ∧ collectSessions (parseJson out) = .ok recs ∧
         getSessions now cache validUrl gatewayUrl probe parseJson =
           (⟨recs⟩, setCache now cache "sessions" ⟨recs⟩))) ∧
    (∀ (now : Int) (cache : Cache CronsResult)
       (validUrl : String → Bool) (gatewayUrl : String)
       (probe : String → Option String) (parseJson : String → Option Json),
       getCached now cache "crons" = none →
       (validUrl (gatewayUrl ++ "/api/cron") = false ∨
        probe (gatewayUrl ++ "/api/cron") = none ∨
        probe (gatewayUrl ++ "/api/cron") = some "" ∨
        (∃ out, probe (gatewayUrl ++ "/api/cron") = some out ∧
          collectCrons (parseJson out) = .error ())) →
       getCrons now cache validUrl gatewayUrl probe parseJson =
         (⟨[]⟩, cache)) ∧
    (∀ (now : Int) (cache : Cache CronsResult)
       (validUrl : String → Bool) (gatewayUrl : String)
       (probe : String → Option String) (parseJson : String → Option Json),
       (getCrons now cache validUrl gatewayUrl probe parseJson).2 = cache ∨
       (∃ out recs, probe (gatewayUrl ++ "/api/cron") = some out ∧
         out ≠ "" ∧ collectCrons (parseJson out) = .ok recs ∧
         getCrons now cache validUrl gatewayUrl probe parseJson =
           (⟨recs⟩, setCache now cache "crons" ⟨recs⟩))) := by
  refine ⟨?_, ?_, ?_, ?_⟩
  · intro now cache validUrl gatewayUrl probe parseJson hmiss hfail
    unfold getSessions
    rw [hmiss]
    rcases hfail with hv | hp | hp | ⟨out, hp, he⟩
    · simp [hv]
    · simp [hp]
    · simp [hp]
    · simp [hp, he]
  · intro now cache validUrl gatewayUrl probe parseJson
    unfold getSessions
    rcases hmiss : getCached now cache "sessions" with _ | r
    · rcases hv : validUrl (gatewayUrl ++ "/api/sessions")
      · left
        simp [hmiss, hv]
      · rcases hp : probe (gatewayUrl ++ "/api/sessions") with _ | out
        · left
          simp [hmiss, hv, hp]
        · by_cases ho : out = ""
          · left
            simp [hmiss, hv, hp, ho]
          · rcases he : collectSessions (parseJson out) with e | recs
            · left
              simp [hmiss, hv, hp, ho, he]
            · right
              exact ⟨out, recs, rfl, ho, he,
                by simp [hmiss, hv, hp, ho, he]⟩
    · left
      simp [hmiss]
  · intro now cache validUrl gatewayUrl probe parseJson hmiss hfail
    unfold getCrons
    rw [hmiss]
    rcases hfail with hv | hp | hp | ⟨out, hp, he⟩
    · simp [hv]
    · simp [hp]
    · simp [hp]
    · simp [hp, he]
  · intro now cache validUrl gatewayUrl probe parseJson
    unfold getCrons
    rcases hmiss : getCached now cache "crons" with _ | r
    · rcases hv : validUrl (gatewayUrl ++ "/api/cron")
      · left
        simp [hmiss, hv]
      · rcases hp : probe (gatewayUrl ++ "/api/cron") with _ | out
        · left
          simp [hmiss, hv, hp]
        · by_cases ho : out = ""
          · left
            simp [hmiss, hv, hp, ho]
          · rcases he : collectCrons (parseJson out) with e | recs
            · left
              simp [hmiss, hv, hp, ho, he]
            · right
              exact ⟨out, recs, rfl, ho, he,
                by simp [hmiss, hv, hp, ho, he]⟩
    · left
      simp [hmiss]

/-- Witness for `collectors_no_cache_poisoning`: a failed probe yields the
empty sessions result and an unchanged cache; a successful probe of an
empty envelope caches its result. -/
theorem collectors_no_cache_poisoning_witness :
    getSessions 0 Cache.empty (fun _ => true) "http://g" (fun _ => none)
      (fun _ => none) = (⟨[]⟩, Cache.empty) ∧
    getCrons 0 Cache.empty (fun _ => true) "http://g" (fun _ => none)
      (fun _ => none) = (⟨[]⟩, Cache.empty) :=
  ⟨collectors_no_cache_poisoning.1 0 Cache.empty (fun _ => true) "http://g"
      (fun _ => none) (fun _ => none) rfl (Or.inr (Or.inl rfl)),
   collectors_no_cache_poisoning.2.2.1 0 Cache.empty (fun _ => true)
      "http://g" (fun _ => none) (fun _ => none) rfl (Or.inr (Or.inl rfl))⟩

/-- C4: a GET for `/health` from a non-rate-limited client is answered
`200` with body `{status:"ok", uptime:<number>}` whatever the configured
token and whatever Authorization header was sent (the env and request are
universally quantified); a rate-limited client gets `429` even for
`/health`, since the rate check runs first. -/
theorem health_endpoint_spec (env : HandlerEnv) (now : Int) (rm : RateMap)
    (req : Request) (hm : req.method = "GET") (hp : req.path = "/health") :
    ((isRateLimited now rm req.ip).1 = false →
      (handleRequest env now rm req).1 = .response ⟨200,
        [("Content-Type", "application/json")],
        some (.obj [("status", .str "ok"), ("uptime", .num env.uptime)])⟩) ∧
    ((isRateLimited now rm req.ip).1 = true →
      (handleRequest env now rm req).1 = .response ⟨429,
        [("Content-Type", "application/json"), ("Retry-After", "60")],
        some (.obj [("error", .str "Too many requests")])⟩) := by
  constructor
  · intro hlim
    simp only [handleRequest, hlim, Bool.false_eq_true, if_false, hm, hp]
    simp
  · intro hlim
    simp [handleRequest, hlim]

/-- Witness for `health_endpoint_spec`: a fresh client gets the health
body with a token configured and no Authorization header, and a client
over the limit gets 429. -/
theorem health_endpoint_spec_witness :
    (handleRequest ⟨[], some "secret", fun _ => Json.null, 42⟩ 0
        RateMap.empty ⟨"GET", "/health", none, none, "9.9.9.9"⟩).1 =
      .response ⟨200, [("Content-Type", "application/json")],
        some (.obj [("status", .str "ok"), ("uptime", .num 42)])⟩ ∧
    (handleRequest ⟨[], some "secret", fun _ => Json.null, 42⟩ 0
        (fun k => if k = "9.9.9.9" then some ⟨60, 0⟩ else none)
        ⟨"GET", "/health", none, none, "9.9.9.9"⟩).1 =
      .response ⟨429,
        [("Content-Type", "application/json"), ("Retry-After", "60")],
        some (.obj [("error", .str "Too many requests")])⟩ :=
  ⟨(health_endpoint_spec ⟨[], some "secret", fun _ => Json.null, 42⟩ 0
      RateMap.empty ⟨"GET", "/health", none, none, "9.9.9.9"⟩ rfl rfl).1
      rfl,
   (health_endpoint_spec ⟨[], some "secret", fun _ => Json.null, 42⟩ 0
      (fun k => if k = "9.9.9.9" then some ⟨60, 0⟩ else none)
      ⟨"GET", "/health", none, none, "9.9.9.9"⟩ rfl rfl).2 rfl⟩

/-- C8 counterexample: a rate-limited request is answered `429` with only
`Content-Type` and `Retry-After` headers — the CORS headers the negotiator
computes for that same request (here a mirrored origin with the
allow-methods pair) are not included, so not every JSON response carries
the CORS headers. -/
theorem rate_limited_response_lacks_cors :
    (handleRequest ⟨[], none, fun _ => Json.null, 0⟩ 0
        (fun k => if k = "1.2.3.4" then some ⟨60, 0⟩ else none)
        ⟨"GET", "/health", some "http://a.example", none, "1.2.3.4"⟩).1 =
      HOut.response ⟨429,
        [("Content-Type", "application/json"), ("Retry-After", "60")],
        some (.obj [("error", .str "Too many requests")])⟩ ∧
    ("Access-Control-Allow-Methods", "GET, OPTIONS") ∈
      getCorsHeaders [] (some "http://a.example") ∧
    ("Access-Control-Allow-Methods", "GET, OPTIONS") ∉
      ([("Content-Type", "application/json"), ("Retry-After", "60")] :
        List (String × String)) :=
  ⟨rfl, by decide, by decide⟩

/-- C8 amended: the `401`, `404`, `204` and non-health `200` responses
carry exactly the CORS headers the negotiator computes for the request;
the `429` response carries only `Content-Type` and `Retry-After`, and the
`/health` `200` response only `Content-Type` — those two do not include
the CORS headers. -/
theorem handler_cors_amended (env : HandlerEnv) (now : Int) (rm : RateMap)
    (req : Request) :
    ∀ r : Response, (handleRequest env now rm req).1 = .response r →
      ((r.status = 401 ∨ r.status = 404 ∨ r.status = 204 ∨
        (r.status = 200 ∧ req.path ≠ "/health")) →
        r.headers = getCorsHeaders env.allowedOrigins req.origin) ∧
      (r.status = 429 →
        r.headers =
          [("Content-Type", "application/json"), ("Retry-After", "60")]) ∧
      (r.status = 200 → req.path = "/health" →
        r.headers = [("Content-Type", "application/json")]) := by
  intro r hr
  simp only [handleRequest] at hr
  rcases hlim : (isRateLimited now rm req.ip).1 with _ | _
  · rw [hlim] at hr
    simp only [Bool.false_eq_true, if_false] at hr
    by_cases hopt : req.method = "OPTIONS"
    · simp only [hopt, if_true, HOut.response.injEq] at hr
      subst hr
      refine ⟨fun _ => rfl, ?_, ?_⟩
      · intro h
        simp at h
      · intro h
        simp at h
    · simp only [hopt, if_false] at hr
      by_cases hhp : req.path = "/health"
      · simp only [hhp, if_true, HOut.response.injEq] at hr
        subst hr
        refine ⟨?_, ?_, fun _ _ => rfl⟩
        · rintro (h | h | h | ⟨h, hne⟩)
          · simp at h
          · simp at h
          · simp at h
          · exact absurd hhp hne
        · intro h
          simp at h
      · simp only [hhp, if_false] at hr
        by_cases hapi : strLeads "/api/" req.path
        · simp only [hapi, if_true] at hr
          by_cases hauth : checkAuth env.authToken req.authorization
          · simp only [hauth, Bool.not_true, Bool.false_eq_true, if_false]
              at hr
            by_cases hin : req.path ∈ apiPaths
            · simp only [hin, if_true, HOut.response.injEq] at hr
              subst hr
              refine ⟨fun _ => rfl, ?_, ?_⟩
              · intro h
                simp at h
              · intro _ hph
                exact absurd hph hhp
            · simp only [hin, if_false, HOut.response.injEq] at hr
              subst hr
              refine ⟨fun _ => rfl, ?_, ?_⟩
              · intro h
                simp at h
              · intro h
                simp at h
          · simp only [Bool.not_eq_true] at hauth
            simp only [hauth, Bool.not_false, if_true, HOut.response.injEq]
              at hr
            subst hr
            refine ⟨fun _ => rfl, ?_, ?_⟩
            · intro h
              simp at h
            · intro h
              simp at h
        · simp only [hapi, if_false] at hr
          exact absurd hr (by simp)
  · rw [hlim] at hr
    simp only [if_true, HOut.response.injEq] at hr
    subst hr
    refine ⟨?_, fun _ => rfl, ?_⟩
    · rintro (h | h | h | ⟨h, _⟩)
      · simp at h
      · simp at h
      · simp at h
      · simp at h
    · intro h
      simp at h

/-- Witness for `handler_cors_amended`: an unmatched API path from a
non-rate-limited, unauthenticated-but-open client gets its `404` with
exactly the negotiated CORS headers. -/
theorem handler_cors_amended_witness :
    ([("Access-Control-Allow-Methods", "GET, OPTIONS"),
      ("Access-Control-Allow-Headers", "Content-Type, Authorization"),
      ("Content-Type", "application/json"),
      ("Access-Control-Allow-Origin", "*")] : List (String × String)) =
      getCorsHeaders ["*"] (some "http://a.example") :=
  (handler_cors_amended ⟨["*"], none, fun _ => Json.null, 0⟩ 0
      RateMap.empty ⟨"GET", "/api/nope", some "http://a.example", none,
        "1.2.3.4"⟩
      ⟨404,
        [("Access-Control-Allow-Methods", "GET, OPTIONS"),
         ("Access-Control-Allow-Headers", "Content-Type, Authorization"),
         ("Content-Type", "application/json"),
         ("Access-Control-Allow-Origin", "*")],
        some (.obj [("error", .str "Not found")])⟩ (by rfl)).1
    (Or.inr (Or.inl rfl))

end OpenClaw
